import Mathlib

/-!
Verification development for the AI POD platform's product review workflow.

The embedding covers:
* the `products` table rows and the `product_feedback` audit table rows, as
  declared by `scripts/init_db.sql` and `scripts/add_feedback_table.sql`;
* the `POST /feedback` handler `record_feedback` (FastAPI route), translated
  statement by statement from its Python source;
* the product status enumeration `product_status` (the six values created by
  `init_db.sql` plus the `rejected` value added by `add_feedback_table.sql`);
* the status values written by the seed scripts;
* a keyword allocation routine modelled from the specification, since only its
  schema columns (`designs_allocated`, `designs_generated`) appear in the
  sources.
-/

namespace PodPlatform

/-- A row of the `products` table as declared in `scripts/init_db.sql`
(columns: id, sku, title, description, base_price, artwork_id, category,
tags, status, created_at, metadata).  The SQL `DECIMAL` price is carried as
an integer number of pence and `JSONB` metadata as an opaque optional
string; neither is computed with. -/
structure Product where
  id : Int
  sku : Option String
  title : Option String
  description : Option String
  base_price : Option Int
  artwork_id : Option Int
  category : Option String
  tags : List String
  status : String
  created_at : Nat
  metadata : Option String
  deriving Repr, DecidableEq

/-- A row of the `product_feedback` audit table as declared in
`scripts/add_feedback_table.sql` (id, product_id, action, reason, style,
provider, keyword, created_at). -/
structure FeedbackRecord where
  id : Int
  product_id : Option Int
  action : String
  reason : Option String
  style : Option String
  provider : Option String
  keyword : Option String
  created_at : Nat
  deriving Repr, DecidableEq

/-- The state visible to the feedback endpoint: the two database tables it
could touch, plus the external asset store (the set of stored image asset
urls) and a counter of delete requests ever issued against that store.  The
handler's source performs exactly one SELECT and one UPDATE on `products`;
the other components are carried so that theorems can state what it does
not touch. -/
structure DBState where
  products : List Product
  product_feedback : List FeedbackRecord
  asset_store : List String
  asset_delete_requests : Nat
  deriving Repr, DecidableEq

/-- The raw JSON body of a `POST /feedback` request, restricted to the three
keys the handler reads: `product_id`, `feedback_type` and `action`.  A
missing key is `none`; JSON `null` also arrives as `none` (Python
`dict.get` returns `None` in both cases). -/
structure FeedbackRequest where
  product_id : Option Int
  feedback_type : Option String
  action : Option String
  deriving Repr, DecidableEq

/-- The success payload returned by the handler:
`{"success": True, "product_id": ..., "status": ...}`. -/
structure FeedbackResult where
  success : Bool
  product_id : Int
  status : String
  deriving Repr, DecidableEq

/-- A FastAPI `HTTPException`: HTTP status code and detail message. -/
structure HTTPError where
  code : Nat
  detail : String
  deriving Repr, DecidableEq

/-- Python `a or b` for optional strings: the empty string and `None` are
falsy, so they fall through to `b`.  Models
`body.get('feedback_type') or body.get('action')`. -/
def pyOrStr (a b : Option String) : Option String :=
  match a with
  | some s => if s = "" then b else some s
  | none => b

/-- The normalization block of the handler:
`approve` becomes `approved`, `reject` becomes `rejected`, anything else is
left untouched. -/
def normalizeFeedbackType (ft : Option String) : Option String :=
  if ft = some "approve" then some "approved"
  else if ft = some "reject" then some "rejected"
  else ft

/-- Detail message of the invalid-action `HTTPException(400, ...)`; the
source interpolates the (already normalized) feedback type value. -/
def invalidActionDetail (ft : Option String) : String :=
  "feedback_type must be approved or rejected, got: " ++
    (match ft with
     | some s => s
     | none => "None")

/-- The `POST /feedback` handler, translated from its Python source:

1. `product_id = body.get('product_id')`; `feedback_type =
   body.get('feedback_type') or body.get('action')`;
2. `if not product_id: raise HTTPException(400, "product_id is required")`
   (an absent, null or zero `product_id` is falsy);
3. normalize `approve`/`reject` to `approved`/`rejected`;
4. `if feedback_type not in ['approved', 'rejected']`: 400;
5. `SELECT id, status FROM products WHERE id = $1`; if no row: 404;
6. `UPDATE products SET status = $1 WHERE id = $2`;
7. return `{"success": True, "product_id": ..., "status": new_status}`.

The handler writes no `product_feedback` row and issues no request against
the asset store, so those state components pass through unchanged. -/
def record_feedback (st : DBState) (body : FeedbackRequest) :
    Except HTTPError (FeedbackResult × DBState) :=
  let feedback_type := pyOrStr body.feedback_type body.action
  match body.product_id with
  | none => .error ⟨400, "product_id is required"⟩
  | some pid =>
    if pid = 0 then .error ⟨400, "product_id is required"⟩
    else
      match normalizeFeedbackType feedback_type with
      | none => .error ⟨400, invalidActionDetail none⟩
      | some new_status =>
        if new_status = "approved" ∨ new_status = "rejected" then
          match st.products.find? (fun p => p.id = pid) with
          | none => .error ⟨404, "Product " ++ toString pid ++ " not found"⟩
          | some _ =>
            let products := st.products.map
              (fun p => if p.id = pid then { p with status := new_status } else p)
            .ok (⟨true, pid, new_status⟩, { st with products := products })
        else .error ⟨400, invalidActionDetail (some new_status)⟩

/-- The `product_status` SQL enumeration: the six values created by
`scripts/init_db.sql` plus the `rejected` value appended by
`scripts/add_feedback_table.sql` (`ALTER TYPE product_status ADD VALUE IF
NOT EXISTS ...`). -/
def productStatusEnum : List String :=
  ["draft", "pending_approval", "approved", "active", "paused", "archived", "rejected"]

/-- The column default of `products.status` in `scripts/init_db.sql`
(`status product_status DEFAULT 'draft'`). -/
def productsStatusDefault : String := "draft"

/-- The status values of the two sample product INSERTs of the resilient
init script (`SAMPLE-001`, `SAMPLE-002`), both `'active'`. -/
def initDbSeedStatuses : List String := ["active", "active"]

/-- The status values of the eight sample product INSERTs of the seed-data
script (`POD-20241018-001` ... `POD-20241018-008`). -/
def seedDataStatuses : List String :=
  ["active", "active", "active", "active", "active", "draft", "pending_approval", "active"]

/-- Modelled from the spec: the keyword allocation routine itself is absent
from the source snapshot; only its schema columns appear (the
`designs_allocated INTEGER DEFAULT 8` / `designs_generated INTEGER DEFAULT
0` columns added by the startup migration, and dashboard labels).  A
candidate keyword carries the fields the specification's contract reads:
`search_volume`, the per-keyword cap `designs_allocated` and the progress
counter `designs_generated`. -/
structure KeywordCand where
  search_volume : Int
  designs_allocated : Nat
  designs_generated : Nat
  deriving Repr, DecidableEq

/-- Modelled from the spec: the fixed per-keyword style count, 8 styles per
keyword in the observed configuration (`designs_allocated INTEGER DEFAULT
8`). -/
def stylesPerKeyword : Nat := 8

/-- Modelled from the spec: a keyword is eligible for further allocation
unless it is already at or above its `designs_allocated` cap. -/
def keywordEligible (k : KeywordCand) : Bool :=
  k.designs_generated < k.designs_allocated

/-- Modelled from the spec: total search volume of the eligible candidates,
the denominator of the proportional split. -/
def eligibleVolume (ks : List KeywordCand) : Nat :=
  ((ks.filter keywordEligible).map (fun k => k.search_volume.toNat)).sum

/-- Modelled from the spec: the count allocated to one keyword out of a
requested total `n` against the eligible volume `t`: an ineligible keyword
receives nothing, an eligible one receives its proportional share capped at
`stylesPerKeyword`. -/
def allocOne (n t : Nat) (k : KeywordCand) : Nat :=
  if keywordEligible k then min stylesPerKeyword (n * k.search_volume.toNat / t) else 0

/-- Modelled from the spec: the keyword allocation planning step (§4.1).
Given a requested total design count `n` and the candidate keywords, it
rejects negative search volumes, allocates proportionally to volume among
eligible keywords subject to the fixed per-keyword style count, and
allocates nothing to a keyword already at or above its cap.  It is a pure
planning computation with no side effect. -/
def allocateDesigns (n : Nat) (ks : List KeywordCand) : Option (List Nat) :=
  if ks.any (fun k => k.search_volume < 0) then none
  else if eligibleVolume ks = 0 then some (ks.map (fun _ => 0))
  else some (ks.map (allocOne n (eligibleVolume ks)))

/-- A `pending_approval` product matching the seeded rows, used as a
concrete evaluation input. -/
def sampleProduct : Product :=
  { id := 1, sku := some "POD-20241018-001", title := some "Vintage London Travel Poster",
    description := some "poster", base_price := some 2999, artwork_id := some 10,
    category := some "posters", tags := ["vintage"], status := "pending_approval",
    created_at := 100, metadata := none }

/-- A database state holding the single pending product, an empty audit
table, and the product's artwork image in the asset store. -/
def sampleState : DBState :=
  { products := [sampleProduct], product_feedback := [],
    asset_store := ["img1.jpg"], asset_delete_requests := 0 }

/-- `sampleState` after a successful approve of product 1. -/
def sampleStateApproved : DBState :=
  { sampleState with products := [{ sampleProduct with status := "approved" }] }

/-- `sampleState` after a successful reject of product 1. -/
def sampleStateRejected : DBState :=
  { sampleState with products := [{ sampleProduct with status := "rejected" }] }

/-- A state whose single product is already in the `rejected` status. -/
def rejectedState : DBState :=
  { sampleState with products := [{ sampleProduct with status := "rejected" }] }

/-- `rejectedState` after an approve call on product 1. -/
def rejectedStateApproved : DBState :=
  { rejectedState with products := [{ sampleProduct with status := "approved" }] }

/-- A state with no product rows at all. -/
def emptyState : DBState :=
  { products := [], product_feedback := [], asset_store := [], asset_delete_requests := 0 }

/-- Inversion principle for the handler: a success is possible exactly when
the request carries a nonzero `product_id`, the (alias-normalized) action is
`approved` or `rejected`, and a product row with that id exists; the result
and the state update are then fixed. -/
theorem record_feedback_ok_iff (st : DBState) (body : FeedbackRequest)
    (r : FeedbackResult) (st2 : DBState) :
    record_feedback st body = .ok (r, st2) ↔
      ∃ pid ns, body.product_id = some pid ∧ pid ≠ 0 ∧
        normalizeFeedbackType (pyOrStr body.feedback_type body.action) = some ns ∧
        (ns = "approved" ∨ ns = "rejected") ∧
        (st.products.find? (fun p => p.id = pid)).isSome ∧
        r = ⟨true, pid, ns⟩ ∧
        st2 = { st with products := st.products.map (fun p => if p.id = pid then { p with status := ns } else p) } := by
  obtain ⟨pido, ftf, actf⟩ := body
  constructor
  · intro h
    cases pido with
    | none => exact absurd h (by simp [record_feedback])
    | some pid =>
      by_cases hp : pid = 0
      · exact absurd h (by simp [record_feedback, hp])
      · cases hn : normalizeFeedbackType (pyOrStr ftf actf) with
        | none => exact absurd h (by simp [record_feedback, hp, hn])
        | some ns =>
          by_cases hs : ns = "approved" ∨ ns = "rejected"
          · cases hf : st.products.find? (fun p => p.id = pid) with
            | none => exact absurd h (by simp [record_feedback, hp, hn, hs, hf])
            | some q =>
              have hrf : record_feedback st ⟨some pid, ftf, actf⟩ =
                  .ok (⟨true, pid, ns⟩, { st with products := st.products.map (fun p => if p.id = pid then { p with status := ns } else p) }) := by
                simp [record_feedback, hp, hn, hs, hf]
              rw [hrf] at h
              injection h with h1
              injection h1 with hr hst
              exact ⟨pid, ns, rfl, hp, rfl, hs, by rw [hf]; rfl, hr.symm, hst.symm⟩
          · exact absurd h (by simp [record_feedback, hp, hn, hs])
  · rintro ⟨pid, ns, hpe, hp, hn, hs, hfs, hr, hst⟩
    subst hr hst
    have hpe2 : pido = some pid := hpe
    subst hpe2
    obtain ⟨q, hq⟩ := Option.isSome_iff_exists.mp hfs
    simp [record_feedback, hp, hn, hs, hq]

/-- Every error the handler can raise carries HTTP status 400 or 404. -/
theorem record_feedback_error_code (st : DBState) (body : FeedbackRequest)
    (e : HTTPError) (h : record_feedback st body = .error e) :
    e.code = 400 ∨ e.code = 404 := by
  obtain ⟨pido, ftf, actf⟩ := body
  cases pido with
  | none =>
    simp [record_feedback] at h
    rw [← h]
    left; rfl
  | some pid =>
    by_cases hp : pid = 0
    · simp [record_feedback, hp] at h
      rw [← h]; left; rfl
    · cases hn : normalizeFeedbackType (pyOrStr ftf actf) with
      | none =>
        simp [record_feedback, hp, hn] at h
        rw [← h]; left; rfl
      | some ns =>
        by_cases hs : ns = "approved" ∨ ns = "rejected"
        · cases hf : PodPlatform.DBState.products st |>.find? (fun p => p.id = pid) with
          | none =>
            simp [record_feedback, hp, hn, hs, hf] at h
            rw [← h]; right; rfl
          | some q =>
            simp [record_feedback, hp, hn, hs, hf] at h
        · simp [record_feedback, hp, hn, hs] at h
          rw [← h]; left; rfl

/-- In the product list produced by the status UPDATE, every row carrying
the targeted id has the new status. -/
theorem update_status_mem_id {l : List Product} {pid : Int} {ns : String} :
    ∀ p ∈ l.map (fun p => if p.id = pid then { p with status := ns } else p),
      p.id = pid → p.status = ns := by
  intro p hp hid
  obtain ⟨q, hq, hqe⟩ := List.mem_map.mp hp
  by_cases h : q.id = pid
  · rw [← hqe]
    simp [h]
  · rw [← hqe] at hid
    simp [h] at hid

/-- A row carrying the targeted id is replaced by its status-updated copy. -/
theorem update_status_mem_of_mem {l : List Product} {pid : Int} {ns : String}
    {q : Product} (hq : q ∈ l) (hid : q.id = pid) :
    ({ q with status := ns } : Product) ∈
      l.map (fun p => if p.id = pid then { p with status := ns } else p) :=
  List.mem_map.mpr ⟨q, hq, by simp [hid]⟩

/-- A row not carrying the targeted id survives the UPDATE unchanged. -/
theorem update_status_mem_of_ne {l : List Product} {pid : Int} {ns : String}
    {q : Product} (hq : q ∈ l) (hid : q.id ≠ pid) :
    q ∈ l.map (fun p => if p.id = pid then { p with status := ns } else p) :=
  List.mem_map.mpr ⟨q, hq, by simp [hid]⟩

/-- Every status in the UPDATE's output is either the new status or a
status already present in the input list. -/
theorem update_status_statuses {l : List Product} {pid : Int} {ns : String} :
    ∀ p ∈ l.map (fun p => if p.id = pid then { p with status := ns } else p),
      p.status = ns ∨ ∃ q ∈ l, p.status = q.status := by
  intro p hp
  obtain ⟨q, hq, hqe⟩ := List.mem_map.mp hp
  by_cases h : q.id = pid
  · left
    rw [← hqe]
    simp [h]
  · right
    exact ⟨q, hq, by rw [← hqe]; simp [h]⟩

/-- When every row with the targeted id already carries the new status, the
UPDATE is the identity on the product list. -/
theorem update_status_map_id {l : List Product} {pid : Int} {ns : String}
    (h : ∀ p ∈ l, p.id = pid → p.status = ns) :
    l.map (fun p => if p.id = pid then { p with status := ns } else p) = l := by
  induction l with
  | nil => rfl
  | cons a t ih =>
    have ha : (if a.id = pid then { a with status := ns } else a) = a := by
      by_cases hid : a.id = pid
      · have hst := h a (List.mem_cons_self a t) hid
        cases a
        simp_all
      · simp [hid]
    simp only [List.map_cons, ha]
    rw [ih (fun p hp hpid => h p (List.mem_cons_of_mem a hp) hpid)]

/-- C10: a `POST /feedback` request whose `product_id` is absent, null or 0
always fails with HTTP 400 `product_id is required`, for every database
state and every action value; in particular a request for product id 0 can
never reach the existence check and so can never yield a 404, because the
handler's `if not product_id` test treats any falsy `product_id` as
absent. -/
theorem feedback_falsy_product_id_is_400 (st : DBState) (ft act : Option String) :
    record_feedback st ⟨none, ft, act⟩ = .error ⟨400, "product_id is required"⟩ ∧
    record_feedback st ⟨some 0, ft, act⟩ = .error ⟨400, "product_id is required"⟩ := by
  constructor
  · simp [record_feedback]
  · simp [record_feedback]

/-- C4: the handler normalizes the action field: `approve` behaves exactly
as `approved` and `reject` exactly as `rejected`; on a successful call the
already-normalized inputs come back unchanged as the resulting status; and
every other action string fails with HTTP 400 (so, the call returning no
new state, the product is unchanged). -/
theorem feedback_action_normalization (st : DBState) (pid : Int) (a : String)
    (hpid : pid ≠ 0) :
    (record_feedback st ⟨some pid, some "approve", none⟩ =
      record_feedback st ⟨some pid, some "approved", none⟩) ∧
    (record_feedback st ⟨some pid, some "reject", none⟩ =
      record_feedback st ⟨some pid, some "rejected", none⟩) ∧
    (∀ r st2, record_feedback st ⟨some pid, some "approved", none⟩ = .ok (r, st2) →
      r.status = "approved") ∧
    (∀ r st2, record_feedback st ⟨some pid, some "rejected", none⟩ = .ok (r, st2) →
      r.status = "rejected") ∧
    (a ≠ "approve" → a ≠ "reject" → a ≠ "approved" → a ≠ "rejected" →
      ∃ d, record_feedback st ⟨some pid, some a, none⟩ = .error ⟨400, d⟩) := by
  refine ⟨?_, ?_, ?_, ?_, ?_⟩
  · have h : normalizeFeedbackType (pyOrStr (some "approve") none) =
        normalizeFeedbackType (pyOrStr (some "approved") none) := by
      simp [pyOrStr, normalizeFeedbackType]
    simp only [record_feedback, h]
  · have h : normalizeFeedbackType (pyOrStr (some "reject") none) =
        normalizeFeedbackType (pyOrStr (some "rejected") none) := by
      simp [pyOrStr, normalizeFeedbackType]
    simp only [record_feedback, h]
  · intro r st2 h
    obtain ⟨pid2, ns, -, -, hn, -, -, hr, -⟩ := (record_feedback_ok_iff st _ r st2).mp h
    have hns : ns = "approved" := by
      simpa [pyOrStr, normalizeFeedbackType] using hn.symm
    rw [hr, hns]
  · intro r st2 h
    obtain ⟨pid2, ns, -, -, hn, -, -, hr, -⟩ := (record_feedback_ok_iff st _ r st2).mp h
    have hns : ns = "rejected" := by
      simpa [pyOrStr, normalizeFeedbackType] using hn.symm
    rw [hr, hns]
  · intro h1 h2 h3 h4
    by_cases he : a = ""
    · subst he
      exact ⟨invalidActionDetail none,
        by simp [record_feedback, hpid, pyOrStr, normalizeFeedbackType]⟩
    · refine ⟨invalidActionDetail (some a), ?_⟩
      have hn : normalizeFeedbackType (pyOrStr (some a) none) = some a := by
        simp [pyOrStr, he, normalizeFeedbackType, h1, h2]
      simp [record_feedback, hpid, hn, h3, h4]

/-- Witness for C4 at the concrete one-product state, product id 1 and the
unknown action `bogus`. -/
theorem feedback_action_normalization_witness :
    record_feedback sampleState ⟨some 1, some "approve", none⟩ =
      record_feedback sampleState ⟨some 1, some "approved", none⟩ :=
  (feedback_action_normalization sampleState 1 "bogus" (by decide)).1

/-- C5: a request naming a product id that matches no product row fails
with HTTP 404 for every accepted action value, and, whatever the action
value is, such a request never succeeds (so no product row is ever
modified). -/
theorem feedback_missing_product_not_found (st : DBState) (pid : Int) (act : String)
    (hpid : pid ≠ 0)
    (hact : act = "approve" ∨ act = "reject" ∨ act = "approved" ∨ act = "rejected")
    (hnone : st.products.find? (fun p => p.id = pid) = none) :
    record_feedback st ⟨some pid, some act, none⟩ =
      .error ⟨404, "Product " ++ toString pid ++ " not found"⟩ ∧
    (∀ body : FeedbackRequest, body.product_id = some pid →
      ∀ r st2, record_feedback st body ≠ .ok (r, st2)) := by
  constructor
  · rcases hact with h | h | h | h <;> subst h <;>
      simp [record_feedback, pyOrStr, normalizeFeedbackType, hpid, hnone]
  · intro body hbody r st2 hok
    obtain ⟨pid2, ns, hpe, -, -, -, hfs, -, -⟩ := (record_feedback_ok_iff st body r st2).mp hok
    rw [hbody] at hpe
    cases hpe
    rw [hnone] at hfs
    exact absurd hfs (by simp)

/-- Witness for C5 at the empty database state, product id 5, action
`approve`. -/
theorem feedback_missing_product_not_found_witness :
    record_feedback emptyState ⟨some 5, some "approve", none⟩ =
      .error ⟨404, "Product 5 not found"⟩ :=
  (feedback_missing_product_not_found emptyState 5 "approve" (by decide)
    (Or.inl rfl) (by rfl)).1

/-- C6: on success the handler returns `{success := true}` with the request's
product id and a status equal to the normalized action (`approved` or
`rejected`), and that status is exactly the value persisted on the product
row (which still exists); every failure carries HTTP status 400 or 404,
which sits inside the documented set of 400 (missing or invalid field),
404 (product not found) and 500 (internal, unreachable in this pure
translation). -/
theorem feedback_result_contract (st : DBState) (body : FeedbackRequest) :
    (∀ r st2, record_feedback st body = .ok (r, st2) →
      r.success = true ∧
      body.product_id = some r.product_id ∧
      normalizeFeedbackType (pyOrStr body.feedback_type body.action) = some r.status ∧
      (r.status = "approved" ∨ r.status = "rejected") ∧
      (∀ p ∈ st2.products, p.id = r.product_id → p.status = r.status) ∧
      (∃ p ∈ st2.products, p.id = r.product_id)) ∧
    (∀ e, record_feedback st body = .error e → e.code = 400 ∨ e.code = 404) := by
  constructor
  · intro r st2 hok
    obtain ⟨pid, ns, hpe, hp0, hn, hs, hfs, hr, hst⟩ :=
      (record_feedback_ok_iff st body r st2).mp hok
    subst hr
    refine ⟨rfl, by rw [hpe], by simpa using hn, hs, ?_, ?_⟩
    · intro p hp hid
      rw [hst] at hp
      exact update_status_mem_id p hp hid
    · obtain ⟨q, hq⟩ := Option.isSome_iff_exists.mp hfs
      have hqm := List.mem_of_find?_eq_some hq
      have hqid : q.id = pid := by simpa using List.find?_some hq
      refine ⟨{ q with status := ns }, ?_, hqid⟩
      rw [hst]
      exact update_status_mem_of_mem hqm hqid
  · exact fun e => record_feedback_error_code st body e

/-- Witness for C6: the approve call on the one-product state echoes its
product id back. -/
theorem feedback_result_contract_witness :
    (⟨some 1, some "approve", none⟩ : FeedbackRequest).product_id =
      some (⟨true, 1, "approved"⟩ : FeedbackResult).product_id :=
  ((feedback_result_contract sampleState ⟨some 1, some "approve", none⟩).1
    ⟨true, 1, "approved"⟩ sampleStateApproved (by rfl)).2.1

/-- C9: frame property of a successful call: the audit table, the asset
store and the delete counter are untouched; the product list is exactly
the input list with the status of the rows carrying the requested id
overwritten; rows with a different id survive unchanged; and a status
overwrite preserves every other column (sku, title, description,
base_price, artwork_id, category, tags, created_at, metadata). -/
theorem feedback_frame_property (st st2 : DBState) (body : FeedbackRequest)
    (r : FeedbackResult) (hok : record_feedback st body = .ok (r, st2)) :
    st2.product_feedback = st.product_feedback ∧
    st2.asset_store = st.asset_store ∧
    st2.asset_delete_requests = st.asset_delete_requests ∧
    st2.products = st.products.map (fun p => if p.id = r.product_id then { p with status := r.status } else p) ∧
    (∀ p ∈ st.products, p.id ≠ r.product_id → p ∈ st2.products) ∧
    (∀ p : Product, ∀ s : String,
      ({ p with status := s } : Product).id = p.id ∧
      ({ p with status := s } : Product).sku = p.sku ∧
      ({ p with status := s } : Product).title = p.title ∧
      ({ p with status := s } : Product).description = p.description ∧
      ({ p with status := s } : Product).base_price = p.base_price ∧
      ({ p with status := s } : Product).artwork_id = p.artwork_id ∧
      ({ p with status := s } : Product).category = p.category ∧
      ({ p with status := s } : Product).tags = p.tags ∧
      ({ p with status := s } : Product).created_at = p.created_at ∧
      ({ p with status := s } : Product).metadata = p.metadata) := by
  obtain ⟨pid, ns, hpe, hp0, hn, hs, hfs, hr, hst⟩ :=
    (record_feedback_ok_iff st body r st2).mp hok
  subst hr
  subst hst
  refine ⟨rfl, rfl, rfl, rfl, ?_, ?_⟩
  · intro p hp hne
    exact update_status_mem_of_ne hp hne
  · intro p s
    exact ⟨rfl, rfl, rfl, rfl, rfl, rfl, rfl, rfl, rfl, rfl⟩

/-- Witness for C9: the approve call leaves the audit table untouched. -/
theorem feedback_frame_property_witness :
    sampleStateApproved.product_feedback = sampleState.product_feedback :=
  (feedback_frame_property sampleState sampleStateApproved
    ⟨some 1, some "approve", none⟩ ⟨true, 1, "approved"⟩ (by rfl)).1

/-- C7: every status value the pipeline's operations persist is a member of
the `product_status` enumeration: the schema default `draft`, the statuses
written by both seed scripts, and - assuming the invariant on the input
state - every status present after a successful feedback call; all of them
are representable in the schema's (migrated) `product_status` type, which
is exactly `productStatusEnum`. -/
theorem product_status_always_in_enum (st st2 : DBState) (body : FeedbackRequest)
    (r : FeedbackResult)
    (hinv : ∀ p ∈ st.products, p.status ∈ productStatusEnum)
    (hok : record_feedback st body = .ok (r, st2)) :
    productsStatusDefault ∈ productStatusEnum ∧
    (∀ s ∈ initDbSeedStatuses, s ∈ productStatusEnum) ∧
    (∀ s ∈ seedDataStatuses, s ∈ productStatusEnum) ∧
    (∀ p ∈ st2.products, p.status ∈ productStatusEnum) := by
  obtain ⟨pid, ns, hpe, hp0, hn, hs, hfs, hr, hst⟩ :=
    (record_feedback_ok_iff st body r st2).mp hok
  subst hst
  refine ⟨by decide, by decide, by decide, ?_⟩
  intro p hp
  rcases update_status_statuses p hp with h | ⟨q, hq, h⟩
  · rw [h]
    rcases hs with h2 | h2 <;> rw [h2] <;> decide
  · rw [h]
    exact hinv q hq

/-- Witness for C7 at the one-product state and its approve call. -/
theorem product_status_always_in_enum_witness :
    productsStatusDefault ∈ productStatusEnum :=
  (product_status_always_in_enum sampleState sampleStateApproved
    ⟨some 1, some "approve", none⟩ ⟨true, 1, "approved"⟩ (by decide) (by rfl)).1

/-- C1 counterexample: the claim "for every valid action the status stays
`rejected`" fails at the action `approve`: on a state whose only product
(id 1) is already `rejected`, the call succeeds and overwrites the status
with `approved`. -/
theorem rejected_state_not_terminal_counterexample :
    record_feedback rejectedState ⟨some 1, some "approve", none⟩ =
      .ok (⟨true, 1, "approved"⟩, rejectedStateApproved) ∧
    rejectedState.products.map Product.status = ["rejected"] ∧
    rejectedStateApproved.products.map Product.status = ["approved"] ∧
    "approved" ≠ "rejected" :=
  ⟨rfl, rfl, rfl, by decide⟩

/-- C1 amended: on an already-rejected product the handler returns success
for every valid action and never touches the asset store (the source
performs no asset deletion at all, so none can be re-attempted); a
reject-type action (`reject`/`rejected`) leaves the database state
completely unchanged; but `rejected` is not terminal: an approve-type
action (`approve`/`approved`) overwrites the status with `approved`. -/
theorem feedback_on_rejected_product (st : DBState) (pid : Int)
    (hpid : pid ≠ 0)
    (hex : (st.products.find? (fun p => p.id = pid)).isSome)
    (hrej : ∀ p ∈ st.products, p.id = pid → p.status = "rejected") :
    (∀ act, act = "reject" ∨ act = "rejected" →
      record_feedback st ⟨some pid, some act, none⟩ =
        .ok (⟨true, pid, "rejected"⟩, st)) ∧
    (∀ act, act = "approve" ∨ act = "approved" →
      ∃ st2, record_feedback st ⟨some pid, some act, none⟩ =
          .ok (⟨true, pid, "approved"⟩, st2) ∧
        st2.asset_store = st.asset_store ∧
        st2.asset_delete_requests = st.asset_delete_requests ∧
        (∀ p ∈ st2.products, p.id = pid → p.status = "approved")) := by
  constructor
  · intro act hact
    have hn : normalizeFeedbackType (pyOrStr (some act) none) = some "rejected" := by
      rcases hact with h | h <;> subst h <;> simp [pyOrStr, normalizeFeedbackType]
    have hok := (record_feedback_ok_iff st ⟨some pid, some act, none⟩
        ⟨true, pid, "rejected"⟩
        { st with products := st.products.map (fun p => if p.id = pid then { p with status := "rejected" } else p) }).mpr
      ⟨pid, "rejected", rfl, hpid, hn, Or.inr rfl, hex, rfl, rfl⟩
    rw [update_status_map_id hrej] at hok
    exact hok
  · intro act hact
    have hn : normalizeFeedbackType (pyOrStr (some act) none) = some "approved" := by
      rcases hact with h | h <;> subst h <;> simp [pyOrStr, normalizeFeedbackType]
    refine ⟨{ st with products := st.products.map (fun p => if p.id = pid then { p with status := "approved" } else p) },
        ?_, rfl, rfl, ?_⟩
    · exact (record_feedback_ok_iff st ⟨some pid, some act, none⟩
          ⟨true, pid, "approved"⟩ _).mpr
        ⟨pid, "approved", rfl, hpid, hn, Or.inl rfl, hex, rfl, rfl⟩
    · intro p hp hid
      exact update_status_mem_id p hp hid

/-- Witness for the amended C1: a repeated reject of the already-rejected
product 1 succeeds and leaves the state unchanged. -/
theorem feedback_on_rejected_product_witness :
    record_feedback rejectedState ⟨some 1, some "reject", none⟩ =
      .ok (⟨true, 1, "rejected"⟩, rejectedState) :=
  (feedback_on_rejected_product rejectedState 1 (by decide) (by decide)
    (by decide)).1 "reject" (Or.inl rfl)

/-- C2 counterexample: approving product 1 in the one-product state (whose
audit table is empty) succeeds and sets the status to `approved`, but the
`product_feedback` table is still empty afterwards: no Feedback audit
record with action `approved` and product id 1 exists. -/
theorem feedback_no_audit_record_counterexample :
    record_feedback sampleState ⟨some 1, some "approve", none⟩ =
      .ok (⟨true, 1, "approved"⟩, sampleStateApproved) ∧
    sampleStateApproved.products.map Product.status = ["approved"] ∧
    sampleStateApproved.product_feedback = [] :=
  ⟨rfl, rfl, rfl⟩

/-- C2 amended: every successful call updates the product's status to the
normalized action (so after a successful approve the product is
`approved`), but appends no audit Feedback record: the `product_feedback`
table passes through unchanged. -/
theorem feedback_success_updates_status_without_audit (st st2 : DBState)
    (body : FeedbackRequest) (r : FeedbackResult)
    (hok : record_feedback st body = .ok (r, st2)) :
    st2.product_feedback = st.product_feedback ∧
    (r.status = "approved" ∨ r.status = "rejected") ∧
    (∀ p ∈ st2.products, p.id = r.product_id → p.status = r.status) := by
  obtain ⟨pid, ns, hpe, hp0, hn, hs, hfs, hr, hst⟩ :=
    (record_feedback_ok_iff st body r st2).mp hok
  subst hr
  subst hst
  refine ⟨rfl, hs, ?_⟩
  intro p hp hid
  exact update_status_mem_id p hp hid

/-- Witness for the amended C2 at the concrete approve call. -/
theorem feedback_success_updates_status_without_audit_witness :
    sampleStateApproved.product_feedback = sampleState.product_feedback :=
  (feedback_success_updates_status_without_audit sampleState sampleStateApproved
    ⟨some 1, some "approve", none⟩ ⟨true, 1, "approved"⟩ (by rfl)).1

/-- C3 counterexample: rejecting the existing product 1, whose artwork image
`img1.jpg` sits in the external asset store, succeeds and commits the
status transition - but the handler issues no delete against the asset
store: the store still holds the image and the delete-request counter is
still zero. -/
theorem feedback_reject_no_asset_delete_counterexample :
    record_feedback sampleState ⟨some 1, some "reject", none⟩ =
      .ok (⟨true, 1, "rejected"⟩, sampleStateRejected) ∧
    sampleStateRejected.products.map Product.status = ["rejected"] ∧
    sampleStateRejected.asset_store = ["img1.jpg"] ∧
    sampleStateRejected.asset_delete_requests = 0 :=
  ⟨rfl, rfl, rfl, rfl⟩

/-- C3 amended: a successful reject commits the status transition to
`rejected` (the durable source of truth) and the request succeeds, but the
handler issues no delete against the external asset store at all: the
store contents and the delete-request counter are unchanged, so tolerating
a delete failure never comes into play. -/
theorem feedback_reject_commits_without_asset_delete (st st2 : DBState)
    (body : FeedbackRequest) (r : FeedbackResult)
    (hok : record_feedback st body = .ok (r, st2))
    (hr : r.status = "rejected") :
    (∀ p ∈ st2.products, p.id = r.product_id → p.status = "rejected") ∧
    st2.asset_store = st.asset_store ∧
    st2.asset_delete_requests = st.asset_delete_requests := by
  obtain ⟨pid, ns, hpe, hp0, hn, hs, hfs, hre, hst⟩ :=
    (record_feedback_ok_iff st body r st2).mp hok
  subst hre
  subst hst
  refine ⟨?_, rfl, rfl⟩
  intro p hp hid
  rw [← hr]
  exact update_status_mem_id p hp hid

/-- Witness for the amended C3 at the concrete reject call. -/
theorem feedback_reject_commits_without_asset_delete_witness :
    sampleStateRejected.asset_store = sampleState.asset_store :=
  (feedback_reject_commits_without_asset_delete sampleState sampleStateRejected
    ⟨some 1, some "reject", none⟩ ⟨true, 1, "rejected"⟩ (by rfl) rfl).2.1

/-- Floor division by a fixed divisor is superadditive. -/
theorem div_add_div_le (a b t : Nat) : a / t + b / t ≤ (a + b) / t := by
  rcases Nat.eq_zero_or_pos t with ht | ht
  · subst ht
    simp
  · rw [Nat.le_div_iff_mul_le ht, Nat.add_mul]
    exact Nat.add_le_add (Nat.div_mul_le_self a t) (Nat.div_mul_le_self b t)

/-- Summing floor divisions never exceeds the floor division of the sum. -/
theorem sum_map_div_le (t : Nat) (l : List Nat) :
    (l.map (fun a => a / t)).sum ≤ l.sum / t := by
  induction l with
  | nil => simp
  | cons a l ih =>
    simp only [List.map_cons, List.sum_cons]
    exact Nat.le_trans (Nat.add_le_add_left ih _) (div_add_div_le a l.sum t)

/-- Sums respect a pointwise bound between two maps over the same list. -/
theorem sum_map_le_sum_map (f g : KeywordCand → Nat) (l : List KeywordCand)
    (h : ∀ k ∈ l, f k ≤ g k) : (l.map f).sum ≤ (l.map g).sum := by
  induction l with
  | nil => simp
  | cons a l ih =>
    simp only [List.map_cons, List.sum_cons]
    exact Nat.add_le_add (h a (List.mem_cons_self a l))
      (ih fun k hk => h k (List.mem_cons_of_mem a hk))

/-- A sum of a guarded map equals the sum of the map over the filtered
list. -/
theorem sum_map_ite_filter (h : KeywordCand → Nat) (ks : List KeywordCand) :
    (ks.map (fun k => if keywordEligible k then h k else 0)).sum =
      ((ks.filter keywordEligible).map h).sum := by
  induction ks with
  | nil => rfl
  | cons a t ih =>
    by_cases ha : keywordEligible a
    · simp [List.filter_cons, ha, ih]
    · simp [List.filter_cons, ha, ih]

/-- Multiplication distributes over a list sum. -/
theorem sum_map_mul_left (n : Nat) (f : KeywordCand → Nat) (l : List KeywordCand) :
    (l.map (fun k => n * f k)).sum = n * (l.map f).sum := by
  induction l with
  | nil => simp
  | cons a t ih =>
    simp only [List.map_cons, List.sum_cons, ih, Nat.mul_add]

/-- Zipping a list with its own map pairs each element with its image. -/
theorem zip_map_snd (f : KeywordCand → Nat) :
    ∀ (l : List KeywordCand), ∀ pr ∈ l.zip (l.map f), pr.2 = f pr.1 := by
  intro l
  induction l with
  | nil => simp
  | cons a t ih =>
    intro pr hpr
    simp only [List.map_cons, List.zip_cons_cons, List.mem_cons] at hpr
    rcases hpr with h | h
    · rw [h]
    · exact ih pr h

/-- C8 (spec-modelled): for every requested total `n` and candidate list,
a successful allocation assigns each keyword at most the per-keyword cap of
8, assigns nothing to a keyword already at or above its `designs_allocated`
cap, is monotonically non-increasing in `search_volume` among eligible
keywords, and sums to at most `n`; at the spec's concrete example
(volumes 100, 50, 25, total 35, cap 8) it yields `[8, 8, 5]`, whose sum is
at most 35. -/
theorem keyword_allocation_properties (n : Nat) (ks : List KeywordCand)
    (counts : List Nat) (halloc : allocateDesigns n ks = some counts) :
    counts.length = ks.length ∧
    (∀ c ∈ counts, c ≤ stylesPerKeyword) ∧
    (∀ pr ∈ ks.zip counts, pr.1.designs_allocated ≤ pr.1.designs_generated → pr.2 = 0) ∧
    (∀ pr1 ∈ ks.zip counts, ∀ pr2 ∈ ks.zip counts,
      keywordEligible pr1.1 → keywordEligible pr2.1 →
      pr2.1.search_volume ≤ pr1.1.search_volume → pr2.2 ≤ pr1.2) ∧
    counts.sum ≤ n ∧
    (allocateDesigns 35 [⟨100, 8, 0⟩, ⟨50, 8, 0⟩, ⟨25, 8, 0⟩] = some [8, 8, 5] ∧
      ([8, 8, 5] : List Nat).sum ≤ 35) := by
  unfold allocateDesigns at halloc
  by_cases hneg : ks.any (fun k => k.search_volume < 0)
  · rw [if_pos hneg] at halloc
    cases halloc
  rw [if_neg hneg] at halloc
  by_cases ht : eligibleVolume ks = 0
  · rw [if_pos ht] at halloc
    injection halloc with hc
    subst hc
    refine ⟨List.length_map _ _, ?_, ?_, ?_, ?_, by decide⟩
    · intro c hc
      obtain ⟨k, -, hk⟩ := List.mem_map.mp hc
      rw [← hk]
      exact Nat.zero_le _
    · intro pr hpr _
      exact zip_map_snd (fun _ => 0) ks pr hpr
    · intro pr1 hpr1 pr2 hpr2 _ _ _
      rw [zip_map_snd (fun _ => 0) ks pr1 hpr1, zip_map_snd (fun _ => 0) ks pr2 hpr2]
    · have : (ks.map (fun _ => (0 : Nat))).sum = 0 := by
        induction ks with
        | nil => rfl
        | cons a t ih => simp [ih]
      rw [this]
      exact Nat.zero_le n
  · rw [if_neg ht] at halloc
    injection halloc with hc
    subst hc
    have htpos : 0 < eligibleVolume ks := Nat.pos_of_ne_zero ht
    refine ⟨List.length_map _ _, ?_, ?_, ?_, ?_, by decide⟩
    · intro c hc
      obtain ⟨k, -, hk⟩ := List.mem_map.mp hc
      rw [← hk]
      unfold allocOne
      by_cases he : keywordEligible k
      · rw [if_pos he]
        exact Nat.min_le_left _ _
      · rw [if_neg he]
        exact Nat.zero_le _
    · intro pr hpr hcap
      rw [zip_map_snd (allocOne n (eligibleVolume ks)) ks pr hpr]
      unfold allocOne keywordEligible
      rw [if_neg]
      simp only [decide_eq_true_eq]
      exact Nat.not_lt.mpr hcap
    · intro pr1 hpr1 pr2 hpr2 he1 he2 hv
      rw [zip_map_snd (allocOne n (eligibleVolume ks)) ks pr1 hpr1,
        zip_map_snd (allocOne n (eligibleVolume ks)) ks pr2 hpr2]
      unfold allocOne
      rw [if_pos he1, if_pos he2]
      exact min_le_min (Nat.le_refl _)
        (Nat.div_le_div_right (Nat.mul_le_mul_left n (Int.toNat_le_toNat hv)))
    · have h1 : ∀ k ∈ ks, allocOne n (eligibleVolume ks) k ≤
          (if keywordEligible k then n * k.search_volume.toNat / eligibleVolume ks else 0) := by
        intro k hk
        unfold allocOne
        by_cases he : keywordEligible k
        · rw [if_pos he, if_pos he]
          exact Nat.min_le_right _ _
        · rw [if_neg he, if_neg he]
      refine Nat.le_trans (sum_map_le_sum_map _ _ ks h1) ?_
      rw [sum_map_ite_filter (fun k => n * k.search_volume.toNat / eligibleVolume ks) ks]
      have h2 : ((ks.filter keywordEligible).map
            (fun k => n * k.search_volume.toNat / eligibleVolume ks)).sum ≤
          ((ks.filter keywordEligible).map (fun k => n * k.search_volume.toNat)).sum /
            eligibleVolume ks := by
        have := sum_map_div_le (eligibleVolume ks)
          ((ks.filter keywordEligible).map (fun k => n * k.search_volume.toNat))
        rw [List.map_map] at this
        exact this
      refine Nat.le_trans h2 ?_
      rw [sum_map_mul_left n (fun k => k.search_volume.toNat) (ks.filter keywordEligible)]
      have h3 : ((ks.filter keywordEligible).map (fun k => k.search_volume.toNat)).sum =
          eligibleVolume ks := rfl
      rw [h3, Nat.mul_div_cancel _ htpos]

/-- Witness for C8 at the spec's concrete example. -/
theorem keyword_allocation_properties_witness :
    ([8, 8, 5] : List Nat).sum ≤ 35 :=
  (keyword_allocation_properties 35 [⟨100, 8, 0⟩, ⟨50, 8, 0⟩, ⟨25, 8, 0⟩]
    [8, 8, 5] (by rfl)).2.2.2.2.2.2

end PodPlatform
